import Mathlib

/-!
Verification of the multiplayer driving demo.

This file gives a shallow embedding of the parts of the code that the
checked properties are about:

* the local-mode per-frame vehicle update of the `Car` component
  (collision resolution, world-bounds clamp, damage/bounce, traction);
* the Firestore-backed multiplayer hook (the most complete variant,
  with adaptive publish rates and quota backoff): the `tryEnterCar` /
  `leaveCar` ownership transactions, the `sendChatMessage` bounded
  chat feed, and the publish throttling of the player effect and of
  `pushCarState`.

Numbers are modelled as exact rationals.  `Math.sin`, `Math.cos` and
`Math.hypot`, and the constant `Math.PI`, are passed as parameters
(`sn`, `cs`, `hyp`, `piV`); the theorems quantify over them, so they
hold in particular for the real trigonometric functions.  Firestore
transactions are modelled as atomic functions from the current document
value to the written document value: the backing store serializes
transactions on a single document, so a set of concurrent transactions
is modelled as running them in an arbitrary serial order.  The promise
rejection of an un-awaited ownership transaction and the acknowledgement
callbacks of fire-and-forget writes are modelled explicitly, as a call
outcome and as schedule events respectively.
-/

namespace GTA6

/-! ## Vehicle dynamics: the Car component's local-mode frame update -/

/-- An axis-aligned collider footprint `{x, z, w, d}`. -/
structure Collider where
  x : ℚ
  z : ℚ
  w : ℚ
  d : ℚ

/-- World bounds passed to the Car component. -/
structure Bounds where
  minX : ℚ
  maxX : ℚ
  minZ : ℚ
  maxZ : ℚ

/-- The bounds the scene supplies: `{minX: -1200, maxX: 1200, minZ: -1200, maxZ: 1200}`. -/
def worldBounds : Bounds := ⟨-1200, 1200, -1200, 1200⟩

def carScale : ℚ := 12/10

/-- Half width of the car box: `1.3 * carScale`. -/
def carHalfW : ℚ := 13/10 * carScale

/-- Half depth of the car box: `2.6 * carScale`. -/
def carHalfD : ℚ := 26/10 * carScale

/-- Gear ratio table `[3.1, 3.0, 2.2, 1.6, 1.25, 1.0, 0.82]`. -/
def gearRatioTable : List ℚ := [31/10, 3, 22/10, 16/10, 125/100, 1, 82/100]

def finalDrive : ℚ := 34/10
def wheelRadius : ℚ := 36/100
def maxRpm : ℚ := 9000
def idleRpm : ℚ := 900
def enginePower : ℚ := 36
def brakePower : ℚ := 34
def drag : ℚ := 2/100
def rolling : ℚ := 28/100

/-- `Math.sign` on rationals. -/
def jsSign (q : ℚ) : ℚ := if 0 < q then 1 else if q < 0 then -1 else 0

/-- Raw key/flag input to one frame of the local simulation. -/
structure CarInput where
  throttle : Bool
  brake : Bool
  steerLeft : Bool
  steerRight : Bool
  handbrake : Bool
  active : Bool

/-- The mutable simulation state read and written by one frame. -/
structure CarSimState where
  x : ℚ
  y : ℚ
  z : ℚ
  yaw : ℚ
  speed : ℚ
  damage : ℚ
  gear : ℕ

/-- Steer input: `(left ? 1 : 0) + (right ? -1 : 0)`, gated on `active`. -/
def steerOf (inp : CarInput) : ℚ :=
  (if inp.active = true ∧ inp.steerLeft = true then 1 else 0) +
    (if inp.active = true ∧ inp.steerRight = true then -1 else 0)

/-- Longitudinal speed after force integration, handbrake decay and idle
decay (the value of `speed.current` at the start of collision testing). -/
def integratedSpeed (inp : CarInput) (gear : ℕ) (speed delta : ℚ) : ℚ :=
  let rGear := gearRatioTable.getD (min gear 6) 0
  let direction : ℚ := if gear = 0 then -1 else 1
  let throttle : ℚ := if inp.active = true ∧ inp.throttle = true then 1 else 0
  let brake : ℚ := if inp.active = true ∧ inp.brake = true then 1 else 0
  let engineForce := throttle * enginePower * rGear * direction
  let brakeSign := if speed = 0 then 1 else jsSign speed
  let brakeForce := brakePower * brake * brakeSign
  let accel := engineForce - brakeForce - drag * speed * |speed| - rolling * speed
  let speed1 := speed + accel * delta
  let speed2 :=
    if (inp.active = true ∧ inp.handbrake = true) ∧ 1/2 < |speed1| then speed1 * (985/1000)
    else speed1
  if inp.active = true then speed2 else speed2 * (99/100)

/-- Position plus the `collided` flag threaded through collision resolution. -/
structure ResolveState where
  px : ℚ
  pz : ℚ
  collided : Bool

/-- The overlap test of `resolveCollision`: the vehicle box inflated by its
half extents overlaps the collider footprint. -/
def overlapsCollider (c : Collider) (px pz : ℚ) : Prop :=
  |px - c.x| < c.w / 2 + carHalfW ∧ |pz - c.z| < c.d / 2 + carHalfD

/-- One collider resolution: on overlap, push the position out along the
axis of smaller penetration. -/
def resolveCollision (c : Collider) (s : ResolveState) : ResolveState :=
  let halfW := c.w / 2 + carHalfW
  let halfD := c.d / 2 + carHalfD
  let dx := s.px - c.x
  let dz := s.pz - c.z
  if |dx| < halfW ∧ |dz| < halfD then
    let penX := halfW - |dx|
    let penZ := halfD - |dz|
    if penX < penZ then
      { s with px := s.px + (if dx = 0 then 1 else jsSign dx) * penX, collided := true }
    else
      { s with pz := s.pz + (if dz = 0 then 1 else jsSign dz) * penZ, collided := true }
  else s

/-- The world-bounds clamp at the end of the collision pass. -/
def clampBounds (b : Bounds) (s : ResolveState) : ResolveState :=
  let minX := b.minX + carHalfW
  let maxX := b.maxX - carHalfW
  let minZ := b.minZ + carHalfD
  let maxZ := b.maxZ - carHalfD
  let s1 :=
    if s.px < minX then { s with px := minX, collided := true }
    else if maxX < s.px then { s with px := maxX, collided := true }
    else s
  if s1.pz < minZ then { s1 with pz := minZ, collided := true }
  else if maxZ < s1.pz then { s1 with pz := maxZ, collided := true }
  else s1

/-- The whole per-frame collision pass: static colliders, then dynamic
colliders, then the world-bounds clamp. -/
def resolvePhase (cols dyn : List Collider) (b : Bounds) (r0 : ResolveState) : ResolveState :=
  clampBounds b (dyn.foldl (fun a c => resolveCollision c a) (cols.foldl (fun a c => resolveCollision c a) r0))

/-- Speed update applied when the frame resolved a collision:
`speed *= -0.25`, snapped to `0` below magnitude `0.8`. -/
def postCollisionSpeed (collided : Bool) (speed : ℚ) : ℚ :=
  if collided = true then
    let bounced := speed * (-(25/100))
    if |bounced| < 8/10 then 0 else bounced
  else speed

/-- Damage update applied when the frame resolved a collision:
`damage = min 1 (damage + min 1 (|speed|/18) * 0.22)`. -/
def postCollisionDamage (collided : Bool) (speed damage : ℚ) : ℚ :=
  if collided = true then min 1 (damage + min 1 (|speed| / 18) * (22/100)) else damage

/-- Traction reported by the frame:
`max(0, 1 - min(1, speedAbs / 45) * |steerInput| * 0.6)`. -/
def tractionOf (speedAbs steer : ℚ) : ℚ :=
  max 0 (1 - min 1 (speedAbs / 45) * |steer| * (6/10))

/-- Everything one local-mode frame produces: the new simulation state and
the fields passed to `onUpdate`. -/
structure StepResult where
  x : ℚ
  y : ℚ
  z : ℚ
  yaw : ℚ
  speed : ℚ
  damage : ℚ
  rpm : ℚ
  traction : ℚ
  gearOut : ℕ
  gearNext : ℕ
  collided : Bool

/-- One local-mode frame of the Car component.  `sn`, `cs` stand for
`Math.sin`, `Math.cos` and `piV` for `Math.PI`; the forward vector is
computed from the yaw at the start of the frame. -/
def step (sn cs : ℚ → ℚ) (piV : ℚ) (cols dyn : List Collider) (b : Bounds)
    (inp : CarInput) (s : CarSimState) (delta : ℚ) : StepResult :=
  let fwdx := sn s.yaw
  let fwdz := cs s.yaw
  let speed3 := integratedSpeed inp s.gear s.speed delta
  let steer := steerOf inp
  let speedAbs := |speed3|
  let steerFactor := 1 / (1 + speedAbs * (8/100))
  let yaw1 := s.yaw + steer * steerFactor * delta * (17/10) *
    (if 1/5 < speedAbs then jsSign speed3 else 1)
  let r0 : ResolveState := ⟨s.x + fwdx * speed3 * delta, s.z + fwdz * speed3 * delta, false⟩
  let r3 := resolvePhase cols dyn b r0
  let rGear := gearRatioTable.getD (min s.gear 6) 0
  let wheelRpm := speedAbs / (2 * piV * wheelRadius) * 60
  let rpm := min maxRpm (max idleRpm (wheelRpm * rGear * finalDrive))
  let gearNext :=
    if inp.active = true ∧ 0 < s.gear then
      if 7800 < rpm ∧ s.gear < 6 then min 6 (s.gear + 1)
      else if rpm < 2200 ∧ 1 < s.gear then max 1 (s.gear - 1)
      else s.gear
    else s.gear
  { x := r3.px, y := s.y, z := r3.pz, yaw := yaw1,
    speed := postCollisionSpeed r3.collided speed3,
    damage := postCollisionDamage r3.collided speed3 s.damage,
    rpm := rpm,
    traction := tractionOf speedAbs steer,
    gearOut := s.gear, gearNext := gearNext, collided := r3.collided }

/-! ## Ownership arbiter: the tryEnterCar / leaveCar transactions -/

/-- Staleness window in milliseconds. -/
def STALE_MS : ℤ := 15000

/-- A vehicle document.  The driver slot and the last-update timestamp are
explicit; every other field is modelled as a field map from field name to
optional value (`none` = field not stored). -/
structure CarDoc (V : Type) where
  driverId : Option String
  driverName : Option String
  updatedAt : Option ℤ
  rest : String → Option V

/-- JS truthiness of a string-or-null field (`null` and `""` are falsy). -/
def truthyStr : Option String → Bool
  | none => false
  | some s => !s.isEmpty

/-- The `occupiedByOther` test of `tryEnterCar`:
`!!raw?.driverId && raw.driverId !== clientId && (updatedAtMs === 0 || Date.now() - updatedAtMs < STALE_MS)`
with `updatedAtMs = raw?.updatedAt?.toMillis?.() ?? 0`. -/
def occupiedByOther {V : Type} (clientId : String) (now : ℤ) (raw : Option (CarDoc V)) : Bool :=
  match raw with
  | none => false
  | some d =>
    let u := d.updatedAt.getD 0
    truthyStr d.driverId && decide (d.driverId ≠ some clientId) &&
      (decide (u = 0) || decide (now - u < STALE_MS))

/-- The transaction body of `tryEnterCar`: read the document, deny when it
is occupied by a fresh other driver, otherwise merge-write the requester
into the driver slot with a server timestamp.  Returns the transaction
result and the document value after commit. -/
def tryEnterCarTx {V : Type} (clientId safeName : String) (now : ℤ)
    (store : Option (CarDoc V)) : Bool × Option (CarDoc V) :=
  if occupiedByOther clientId now store = true then (false, store)
  else
    match store with
    | some d =>
      (true, some { d with driverId := some clientId, driverName := some safeName,
                           updatedAt := some now })
    | none =>
      (true, some { driverId := some clientId, driverName := some safeName,
                    updatedAt := some now, rest := fun _ => none })

/-- The settled-value path of `tryEnterCar`: during quota backoff it
returns `true` without touching the store, otherwise it runs the
transaction.  `tryEnterCarCall` additionally models the promise
rejection of an unreachable store. -/
def tryEnterCar {V : Type} (quotaBlocked : Bool) (clientId safeName : String)
    (now : ℤ) (store : Option (CarDoc V)) : Bool × Option (CarDoc V) :=
  if quotaBlocked = true then (true, store)
  else tryEnterCarTx clientId safeName now store

/-- What awaiting a call to `tryEnterCar` / `leaveCar` can produce: the
promise fulfills with a boolean, or it rejects and the error surfaces at
the caller.  The second component is the document value after the call. -/
inductive CallOutcome (V : Type) where
  | fulfilled (value : Bool) (store : Option (CarDoc V))
  | rejected (store : Option (CarDoc V))

/-- The full `tryEnterCar` call as awaited by the caller.  During quota
backoff it fulfills with `true` without touching the store.  The
transaction promise is returned from the `try` block without `await`, so
when the store is unreachable and the transaction rejects (`txRejects`),
the rejection bypasses the in-function catch (which handles only
synchronous throws) and propagates to the caller, with nothing
committed. -/
def tryEnterCarCall {V : Type} (quotaBlocked txRejects : Bool)
    (clientId safeName : String) (now : ℤ) (store : Option (CarDoc V)) :
    CallOutcome V :=
  if quotaBlocked = true then CallOutcome.fulfilled true store
  else if txRejects = true then CallOutcome.rejected store
  else
    let out := tryEnterCarTx clientId safeName now store
    CallOutcome.fulfilled out.1 out.2

/-- Spread-then-merge of a partial state patch onto stored fields: a field
present in the patch wins, otherwise the stored value is kept. -/
def mergePatch {V : Type} (patch old : String → Option V) : String → Option V :=
  fun k => (patch k).orElse fun _ => old k

/-- The transaction body of `leaveCar`: deny when the document records a
truthy driver different from the caller; otherwise merge-write the patch
with the driver fields cleared (the spread puts the explicit nulls after
the patch, so patch values for the driver slot can never survive). -/
def leaveCarTx {V : Type} (clientId : String) (patch : String → Option V) (now : ℤ)
    (store : Option (CarDoc V)) : Bool × Option (CarDoc V) :=
  let denied :=
    match store with
    | none => false
    | some d => truthyStr d.driverId && decide (d.driverId ≠ some clientId)
  if denied = true then (false, store)
  else
    match store with
    | some d =>
      (true, some { driverId := none, driverName := none, updatedAt := some now,
                    rest := mergePatch patch d.rest })
    | none =>
      (true, some { driverId := none, driverName := none, updatedAt := some now,
                    rest := patch })

/-- The settled-value path of `leaveCar`, with the same quota gate as
`tryEnterCar`. -/
def leaveCar {V : Type} (quotaBlocked : Bool) (clientId : String)
    (patch : String → Option V) (now : ℤ) (store : Option (CarDoc V)) :
    Bool × Option (CarDoc V) :=
  if quotaBlocked = true then (true, store)
  else leaveCarTx clientId patch now store

/-- The full `leaveCar` call as awaited by the caller: like
`tryEnterCarCall`, the transaction promise is returned without `await`,
so a rejection propagates to the caller instead of being caught. -/
def leaveCarCall {V : Type} (quotaBlocked txRejects : Bool) (clientId : String)
    (patch : String → Option V) (now : ℤ) (store : Option (CarDoc V)) :
    CallOutcome V :=
  if quotaBlocked = true then CallOutcome.fulfilled true store
  else if txRejects = true then CallOutcome.rejected store
  else
    let out := leaveCarTx clientId patch now store
    CallOutcome.fulfilled out.1 out.2

/-- One acquisition request: requester id, display name, and the wall-clock
time at which its transaction commits. -/
structure AcquireReq where
  cid : String
  nm : String
  now : ℤ

/-- A set of concurrent `tryEnterCar` calls on one vehicle, serialized by
the store's transaction mechanism in list order. -/
def runAcquires {V : Type} (reqs : List AcquireReq) (store : Option (CarDoc V)) :
    List Bool × Option (CarDoc V) :=
  match reqs with
  | [] => ([], store)
  | r :: rs =>
    let out := tryEnterCarTx r.cid r.nm r.now store
    let tail := runAcquires rs out.2
    (out.1 :: tail.1, tail.2)

/-! ## Chat feed: sendChatMessage and the chat snapshot listener -/

def CHAT_MAX_MESSAGES : ℕ := 40

/-- The read-modify-write of `sendChatMessage`: filter the stored array to
its object entries (`none` models a non-object entry), append the new
message, keep the last `CHAT_MAX_MESSAGES` entries (`slice(-40)`). -/
def appendChat {M : Type} (stored : List (Option M)) (m : M) : List M :=
  let current := stored.filterMap id
  let grown := current ++ [m]
  grown.drop (grown.length - CHAT_MAX_MESSAGES)

/-- A validated chat message as produced by the chat snapshot listener. -/
structure ChatRow where
  id : String
  senderId : String
  senderName : String
  text : String
  createdAtMs : ℚ

/-- A raw stored message object: each field is `some v` when present with
the expected type, `none` otherwise. -/
structure RawMsg where
  id : Option String
  senderId : Option String
  senderName : Option String
  text : Option String
  createdAtMs : Option ℚ

/-- Field validation of one raw entry in the chat listener: entries whose
text is not a nonempty string are dropped; the other fields are defaulted
and length-clamped.  The random fallback id is modelled by a fixed
string, which no checked property depends on. -/
def parseRow (r : RawMsg) : Option ChatRow :=
  match r.text with
  | none => none
  | some t =>
    if t.trim = "" then none
    else
      some
        { id := r.id.getD "m-fallback",
          senderId := r.senderId.getD "",
          senderName :=
            match r.senderName with
            | some n => if n.trim = "" then "Guest" else n.take 16
            | none => "Guest",
          text := t.take 180,
          createdAtMs := r.createdAtMs.getD 0 }

/-- The merged display list: validated rows sorted by creation time
(`rows.sort((a, b) => a.createdAtMs - b.createdAtMs)`). -/
def parseChatRows (raws : List RawMsg) : List ChatRow :=
  (raws.filterMap parseRow).mergeSort fun a b => decide (a.createdAtMs ≤ b.createdAtMs)

/-! ## Publish throttling: the player publish effect and pushCarState -/

def PLAYER_SYNC_FAST_MS : ℤ := 140
def PLAYER_SYNC_NORMAL_MS : ℤ := 260
def PLAYER_HEARTBEAT_MS : ℤ := 2500
def CAR_SYNC_FAST_MS : ℤ := 90
def CAR_SYNC_NORMAL_MS : ℤ := 180
def CAR_HEARTBEAT_MS : ℤ := 1000

/-- Truncation toward zero, as used by the JS `%` operator. -/
def ratTrunc (q : ℚ) : ℤ := if 0 ≤ q then ⌊q⌋ else ⌈q⌉

/-- The JS remainder operator `a % b` on rationals. -/
def jsRem (a b : ℚ) : ℚ := a - b * (ratTrunc (a / b) : ℚ)

/-- The outgoing player payload (name already sanitized to `safeName`). -/
structure PlayerPayload where
  name : String
  x : ℚ
  z : ℚ
  yaw : ℚ
  health : ℚ
  wanted : ℚ
  ammo : ℚ
  inCar : Bool

/-- Throttling state for one published entity: time of the last successful
send and the last successfully sent payload. -/
structure PubState (P : Type) where
  lastSent : ℤ
  lastPayload : Option P

/-- `moveDist`: `prev ? Math.hypot(dx, dz) : 999`, with `hyp` standing for
`Math.hypot`. -/
def playerMoveDist (hyp : ℚ → ℚ → ℚ) (p : PlayerPayload) (prev : Option PlayerPayload) : ℚ :=
  match prev with
  | none => 999
  | some q => hyp (p.x - q.x) (p.z - q.z)

/-- `yawDiff`: `prev ? |((yaw - prev.yaw + 3π) % 2π) - π| : π`. -/
def playerYawDiff (piV : ℚ) (p : PlayerPayload) (prev : Option PlayerPayload) : ℚ :=
  match prev with
  | none => piV
  | some q => |jsRem (p.yaw - q.yaw + piV * 3) (piV * 2) - piV|

/-- The `changed` test of the player publish effect. -/
def playerChanged (hyp : ℚ → ℚ → ℚ) (piV : ℚ) (p : PlayerPayload)
    (prev : Option PlayerPayload) : Bool :=
  match prev with
  | none => true
  | some q =>
    decide (playerMoveDist hyp p prev > 8/100) ||
    decide (playerYawDiff piV p prev > 6/100) ||
    decide (p.health ≠ q.health) || decide (p.wanted ≠ q.wanted) ||
    decide (p.ammo ≠ q.ammo) || decide (p.inCar ≠ q.inCar) || decide (p.name ≠ q.name)

/-- The minimum inter-send gap the player effect selects. -/
def playerGap (hyp : ℚ → ℚ → ℚ) (piV : ℚ) (p : PlayerPayload)
    (prev : Option PlayerPayload) : ℤ :=
  if playerChanged hyp piV p prev = false then PLAYER_HEARTBEAT_MS
  else if p.inCar = true ∨ playerMoveDist hyp p prev > 7/10 ∨ playerYawDiff piV p prev > 3/10
    then PLAYER_SYNC_FAST_MS
  else PLAYER_SYNC_NORMAL_MS

/-- Whether one run of the player publish effect issues a write: quota not
blocked and the time since the last recorded send has reached the
selected gap.  Issuing does not touch the refs — they are only written by
the write's resolution callback. -/
def playerIssues (hyp : ℚ → ℚ → ℚ) (piV : ℚ) (st : PubState PlayerPayload)
    (now : ℤ) (p : PlayerPayload) (quotaBlocked : Bool) : Bool :=
  if quotaBlocked = true then false
  else if now - st.lastSent < playerGap hyp piV p st.lastPayload then false
  else true

/-- The `.then` callback of an issued player write: record the send time
and payload captured when the write was issued.  A failed write never
runs this. -/
def playerThen (now : ℤ) (p : PlayerPayload) : PubState PlayerPayload :=
  ⟨now, some p⟩

/-- One event in the life of the player publish effect: an effect run
(`attempt`), or the resolution callback of an earlier issued write
landing (`ack`), carrying the send time and payload that write
captured. -/
inductive PlayerEvent where
  | attempt (now : ℤ) (payload : PlayerPayload)
  | ack (now : ℤ) (payload : PlayerPayload)

/-- The faithful run of the player publish effect over a schedule of
effect runs and write acknowledgements, with quota not blocked: an
`attempt` issues (or skips) a write without touching the refs; an `ack`
applies the corresponding `.then` callback.  Returns the times of the
issued writes and the final ref state.  Schedules where acknowledgements
lag behind attempts are exactly the runs of the real effect under
network latency. -/
def runPlayerEffect (hyp : ℚ → ℚ → ℚ) (piV : ℚ) (st : PubState PlayerPayload) :
    List PlayerEvent → List ℤ × PubState PlayerPayload
  | [] => ([], st)
  | PlayerEvent.attempt now p :: rest =>
    let issued := playerIssues hyp piV st now p false
    let tail := runPlayerEffect hyp piV st rest
    (if issued = true then now :: tail.1 else tail.1, tail.2)
  | PlayerEvent.ack now p :: rest => runPlayerEffect hyp piV (playerThen now p) rest

/-- The prompt-acknowledgement schedule for a list of attempt times with a
fixed payload: every issued write's `ack` lands immediately after its
`attempt`, before the next attempt. -/
def promptSchedule (hyp : ℚ → ℚ → ℚ) (piV : ℚ) (st : PubState PlayerPayload)
    (p : PlayerPayload) : List ℤ → List PlayerEvent
  | [] => []
  | t :: ts =>
    if playerIssues hyp piV st t p false = true then
      PlayerEvent.attempt t p :: PlayerEvent.ack t p ::
        promptSchedule hyp piV (playerThen t p) p ts
    else
      PlayerEvent.attempt t p :: promptSchedule hyp piV st p ts

/-- One attempt of the player publish effect whose write, when issued, is
acknowledged before anything else happens: the issue decision followed by
its own `.then` callback.  Delayed acknowledgements are modelled by
`runPlayerEffect`. -/
def playerPublishStep (hyp : ℚ → ℚ → ℚ) (piV : ℚ) (st : PubState PlayerPayload)
    (now : ℤ) (p : PlayerPayload) (quotaBlocked : Bool) :
    Bool × PubState PlayerPayload :=
  if playerIssues hyp piV st now p quotaBlocked = true then (true, playerThen now p)
  else (false, st)

/-- A sequence of player publish attempts at the given times, all carrying
the same payload, with quota not blocked, under the prompt-acknowledgement
schedule (each issued write acked before the next attempt). -/
def runPlayerPublishes (hyp : ℚ → ℚ → ℚ) (piV : ℚ) (st : PubState PlayerPayload)
    (ts : List ℤ) (p : PlayerPayload) : List Bool × PubState PlayerPayload :=
  match ts with
  | [] => ([], st)
  | t :: rest =>
    let out := playerPublishStep hyp piV st t p false
    let tail := runPlayerPublishes hyp piV out.2 rest p
    (out.1 :: tail.1, tail.2)

/-- An outgoing car patch (`Partial<NetCarState>`): absent fields are `none`. -/
structure CarPatch where
  x : Option ℚ
  y : Option ℚ
  z : Option ℚ
  yaw : Option ℚ
  speed : Option ℚ
  gear : Option ℚ
  headlightsOn : Option Bool

/-- `posMove` of `pushCarState`: `prev ? Math.hypot((x ?? 0) - (prev.x ?? 0), (z ?? 0) - (prev.z ?? 0)) : 999`. -/
def carPosMove (hyp : ℚ → ℚ → ℚ) (patch : CarPatch) (prev : Option CarPatch) : ℚ :=
  match prev with
  | none => 999
  | some q => hyp (patch.x.getD 0 - q.x.getD 0) (patch.z.getD 0 - q.z.getD 0)

/-- `yawDiff` of `pushCarState`. -/
def carYawDiff (piV : ℚ) (patch : CarPatch) (prev : Option CarPatch) : ℚ :=
  match prev with
  | none => piV
  | some q => |jsRem (patch.yaw.getD 0 - q.yaw.getD 0 + piV * 3) (piV * 2) - piV|

/-- The `changed` test of `pushCarState`. -/
def carChanged (hyp : ℚ → ℚ → ℚ) (piV : ℚ) (patch : CarPatch)
    (prev : Option CarPatch) : Bool :=
  match prev with
  | none => true
  | some q =>
    decide (carPosMove hyp patch prev > 1/10) ||
    decide (carYawDiff piV patch prev > 8/100) ||
    decide (|patch.speed.getD 0 - q.speed.getD 0| > 1/2) ||
    decide (patch.gear.getD 0 ≠ q.gear.getD 0) ||
    decide (patch.headlightsOn.getD false ≠ q.headlightsOn.getD false)

/-- The minimum inter-send gap `pushCarState` selects. -/
def carMinGap (hyp : ℚ → ℚ → ℚ) (piV : ℚ) (patch : CarPatch)
    (prev : Option CarPatch) : ℤ :=
  if carChanged hyp piV patch prev = false then CAR_HEARTBEAT_MS
  else if |patch.speed.getD 0| > 6 ∨ carPosMove hyp patch prev > 8/10 ∨
      carYawDiff piV patch prev > 35/100
    then CAR_SYNC_FAST_MS
  else CAR_SYNC_NORMAL_MS

/-- One call of `pushCarState` for a fixed car: skip during quota backoff
or inside the selected gap, otherwise record the send time and payload
(done synchronously, before the write is issued) and send. -/
def pushCarStateStep (hyp : ℚ → ℚ → ℚ) (piV : ℚ) (st : PubState CarPatch)
    (now : ℤ) (patch : CarPatch) (quotaBlocked : Bool) : Bool × PubState CarPatch :=
  if quotaBlocked = true then (false, st)
  else if now - st.lastSent < carMinGap hyp piV patch st.lastPayload then (false, st)
  else (true, ⟨now, some patch⟩)

/-! ## Concrete inputs used by witnesses and counterexamples -/

def zeroInput : CarInput := ⟨false, false, false, false, false, false⟩
def snZero : ℚ → ℚ := fun _ => 0
def csOne : ℚ → ℚ := fun _ => 1
def cexColA : Collider := ⟨0, 0, 2, 2⟩
def cexColB : Collider := ⟨5, 0, 2, 2⟩
def cexCarState : CarSimState := ⟨2, 75/100, 0, 0, 0, 0, 1⟩
def speedyCarState : CarSimState := ⟨0, 75/100, 0, 0, 20, 0, 1⟩
def tinyBounds : Bounds := ⟨-1, 1, -1, 1⟩
def reqA : AcquireReq := ⟨"p-a", "Alice", 1000⟩
def reqB : AcquireReq := ⟨"p-b", "Bob", 1200⟩
def reqC : AcquireReq := ⟨"p-c", "Cara", 1400⟩
def docForeign : CarDoc Unit := ⟨some "p-x", some "Xena", some 5, fun _ => none⟩
def docSelfX : CarDoc Unit := ⟨some "p-x", some "Xena", some 5, fun _ => none⟩
def emptyPatch : String → Option Unit := fun _ => none
def hypAbsSum : ℚ → ℚ → ℚ := fun a b => |a| + |b|
def payloadGuest : PlayerPayload := ⟨"Guest", 0, 0, 0, 100, 0, 0, false⟩
def patchCar1 : CarPatch := ⟨some 6, some (75/100), some (-6), some 0, some 0, some 1, some true⟩

/-! ## Helper lemmas -/

/-- A string-or-null driver field is truthy exactly when it holds a
nonempty string. -/
theorem truthyStr_some_iff (s : String) : truthyStr (some s) = true ↔ s ≠ "" := by
  simp only [truthyStr, Bool.not_eq_true']
  constructor
  · intro h hs
    rw [hs] at h
    exact absurd h (by decide)
  · intro h
    cases h0 : s.isEmpty
    · rfl
    · exact absurd (String.isEmpty_iff s |>.mp h0) h

/-- Pushing along x by the chosen direction times the penetration lands the
box exactly on the collider boundary, outside the strict overlap test. -/
theorem push_out (dx hW : ℚ) :
    ¬ |dx + (if dx = 0 then 1 else jsSign dx) * (hW - |dx|)| < hW := by
  rcases lt_trichotomy dx 0 with h | h | h
  · rw [if_neg (ne_of_lt h)]
    have hs : jsSign dx = -1 := by unfold jsSign; rw [if_neg (by linarith), if_pos h]
    rw [hs, abs_of_neg h]
    intro hcon
    have he : dx + -1 * (hW - -dx) = -hW := by ring
    rw [he, abs_neg] at hcon
    linarith [le_abs_self hW]
  · rw [if_pos h, h]
    intro hcon
    have he : (0:ℚ) + 1 * (hW - |(0:ℚ)|) = hW := by simp
    rw [he] at hcon
    linarith [le_abs_self hW]
  · rw [if_neg (ne_of_gt h)]
    have hs : jsSign dx = 1 := by unfold jsSign; rw [if_pos h]
    rw [hs, abs_of_pos h]
    intro hcon
    have he : dx + 1 * (hW - dx) = hW := by ring
    rw [he] at hcon
    linarith [le_abs_self hW]

/-! ## C5: collision resolution post-condition -/

/-- Claim C5 counterexample: with colliders A at the origin and B at
`(5, 0)` (both 2 by 2) and the vehicle overlapping A at `(2, 0)`, the
per-tick resolution pass (A, then B, then the world-bounds clamp) leaves
the vehicle's inflated box overlapping A again: resolving B pushes the
vehicle back into A.  This refutes the claimed post-condition that after
the pass no collider in the supplied list overlaps the vehicle. -/
theorem resolve_pass_overlap_cex :
    cexColA ∈ [cexColA, cexColB] ∧
    overlapsCollider cexColA
      (step snZero csOne 3 [cexColA, cexColB] [] worldBounds zeroInput cexCarState 0).x
      (step snZero csOne 3 [cexColA, cexColB] [] worldBounds zeroInput cexCarState 0).z := by
  refine ⟨by simp, ?_⟩
  norm_num [step, resolvePhase, resolveCollision, clampBounds, overlapsCollider,
    integratedSpeed, steerOf, jsSign, cexColA, cexColB, cexCarState, zeroInput, snZero,
    csOne, worldBounds, carHalfW, carHalfD, carScale, gearRatioTable, drag, rolling,
    enginePower, brakePower, abs]

/-- Claim C5 (amended): each individual collider resolution leaves the
vehicle's inflated box not overlapping the collider just resolved; a later
resolution in the same pass (or the bounds clamp) may re-introduce overlap
with an earlier collider, so the pass-wide post-condition only holds for
the last collider processed. -/
theorem resolveCollision_clears_collider (c : Collider) (r : ResolveState) :
    ¬ overlapsCollider c (resolveCollision c r).px (resolveCollision c r).pz := by
  by_cases hov : |r.px - c.x| < c.w / 2 + carHalfW ∧ |r.pz - c.z| < c.d / 2 + carHalfD
  · by_cases hpen : c.w / 2 + carHalfW - |r.px - c.x| < c.d / 2 + carHalfD - |r.pz - c.z|
    · have hres : resolveCollision c r =
          { r with px := r.px + (if r.px - c.x = 0 then 1 else jsSign (r.px - c.x)) *
              (c.w / 2 + carHalfW - |r.px - c.x|), collided := true } := by
        unfold resolveCollision
        dsimp only
        rw [if_pos hov, if_pos hpen]
      rw [hres]
      unfold overlapsCollider
      dsimp only
      intro hcon
      have h1x := hcon.1
      have e : r.px + (if r.px - c.x = 0 then 1 else jsSign (r.px - c.x)) *
            (c.w / 2 + carHalfW - |r.px - c.x|) - c.x
          = r.px - c.x + (if r.px - c.x = 0 then 1 else jsSign (r.px - c.x)) *
            (c.w / 2 + carHalfW - |r.px - c.x|) := by ring
      rw [e] at h1x
      exact push_out (r.px - c.x) (c.w / 2 + carHalfW) h1x
    · have hres : resolveCollision c r =
          { r with pz := r.pz + (if r.pz - c.z = 0 then 1 else jsSign (r.pz - c.z)) *
              (c.d / 2 + carHalfD - |r.pz - c.z|), collided := true } := by
        unfold resolveCollision
        dsimp only
        rw [if_pos hov, if_neg hpen]
      rw [hres]
      unfold overlapsCollider
      dsimp only
      intro hcon
      have h1z := hcon.2
      have e : r.pz + (if r.pz - c.z = 0 then 1 else jsSign (r.pz - c.z)) *
            (c.d / 2 + carHalfD - |r.pz - c.z|) - c.z
          = r.pz - c.z + (if r.pz - c.z = 0 then 1 else jsSign (r.pz - c.z)) *
            (c.d / 2 + carHalfD - |r.pz - c.z|) := by ring
      rw [e] at h1z
      exact push_out (r.pz - c.z) (c.d / 2 + carHalfD) h1z
  · have hres : resolveCollision c r = r := by
      unfold resolveCollision
      dsimp only
      rw [if_neg hov]
    rw [hres]
    exact hov

/-- Witness for the amended C5 theorem at a concrete overlapping input. -/
theorem resolveCollision_clears_collider_witness :
    ¬ overlapsCollider cexColA
      (resolveCollision cexColA ⟨2, 0, false⟩).px
      (resolveCollision cexColA ⟨2, 0, false⟩).pz :=
  resolveCollision_clears_collider cexColA ⟨2, 0, false⟩

/-! ## C3: behaviour when the store is unreachable or writes suspended -/

/-- Claim C3 counterexample: during quota backoff (writes suspended) an
acquire call fulfills with `true`, not `false`, so the claim that a
suspended acquire surfaces as denied is false. -/
theorem quota_acquire_cex :
    ¬ (tryEnterCarCall (V := Unit) true false "p-a" "Alice" 0 none
        = CallOutcome.fulfilled false none) := by
  simp [tryEnterCarCall]

/-- Claim C3 (amended): during quota backoff both `tryEnterCar` and
`leaveCar` fulfill with `true` without touching the store — the attempt
is treated as a local-only success, preserving local playability — and,
because the transaction promise is returned from the `try` block without
`await`, a transaction rejected by an unreachable store bypasses the
in-function catch and the rejection propagates to the awaiting caller
(which guards the call with its own try/catch), with nothing committed;
the in-function catch yields `false` only for synchronous throws. -/
theorem unreachable_store_semantics {V : Type} (cid nm : String)
    (patch : String → Option V) (now : ℤ) (store : Option (CarDoc V)) (txR : Bool) :
    tryEnterCarCall true txR cid nm now store = CallOutcome.fulfilled true store ∧
    leaveCarCall true txR cid patch now store = CallOutcome.fulfilled true store ∧
    tryEnterCarCall false true cid nm now store = CallOutcome.rejected store ∧
    leaveCarCall false true cid patch now store = CallOutcome.rejected store := by
  refine ⟨by simp [tryEnterCarCall], by simp [leaveCarCall],
    by simp [tryEnterCarCall], by simp [leaveCarCall]⟩

/-! ## C4: release semantics -/

/-- Claim C4: `leaveCar` by a non-driver (the document records a truthy
driver different from the caller) returns `false` and performs no write;
otherwise it clears both driver fields and merges the supplied final-state
patch in the same single write and returns `true`. -/
theorem leaveCar_release_spec {V : Type} (cid : String) (patch : String → Option V)
    (now : ℤ) (d : CarDoc V) :
    (∀ o, d.driverId = some o → o ≠ "" → o ≠ cid →
      leaveCar false cid patch now (some d) = (false, some d)) ∧
    ((d.driverId = none ∨ d.driverId = some "" ∨ d.driverId = some cid) →
      leaveCar false cid patch now (some d) =
        (true, some ⟨none, none, some now, mergePatch patch d.rest⟩)) := by
  constructor
  · intro o ho hne hnec
    have hden : (truthyStr d.driverId && decide (d.driverId ≠ some cid)) = true := by
      rw [ho, Bool.and_eq_true, decide_eq_true_eq]
      exact ⟨(truthyStr_some_iff o).mpr hne, by simpa using hnec⟩
    show leaveCarTx cid patch now (some d) = (false, some d)
    unfold leaveCarTx
    dsimp only
    rw [hden]
    simp
  · intro h
    have hden : (truthyStr d.driverId && decide (d.driverId ≠ some cid)) = false := by
      rcases h with h | h | h
      · rw [h]; rfl
      · rw [h]; rfl
      · rw [h]; simp
    show leaveCarTx cid patch now (some d) =
      (true, some ⟨none, none, some now, mergePatch patch d.rest⟩)
    unfold leaveCarTx
    dsimp only
    rw [hden]
    simp

/-- Witness for C4: a release attempt against a foreign driver is denied
and leaves the document untouched; a release by the recorded driver clears
the slot and merges the patch. -/
theorem leaveCar_release_spec_witness :
    leaveCar false "p-y" emptyPatch 9 (some docForeign) = (false, some docForeign) ∧
    leaveCar false "p-x" emptyPatch 9 (some docSelfX) =
      (true, some ⟨none, none, some 9, mergePatch emptyPatch docSelfX.rest⟩) :=
  ⟨(leaveCar_release_spec "p-y" emptyPatch 9 docForeign).1 "p-x" rfl (by decide) (by decide),
   (leaveCar_release_spec "p-x" emptyPatch 9 docSelfX).2 (Or.inr (Or.inr rfl))⟩

/-! ## C2: full characterization of the acquire transaction -/

/-- The occupancy test succeeds exactly when the document exists and
records a nonempty driver id different from the requester whose last
update is unknown (0) or younger than the 15000 ms staleness window. -/
theorem occupiedByOther_iff {V : Type} (cid : String) (now : ℤ)
    (store : Option (CarDoc V)) :
    occupiedByOther cid now store = true ↔
      ∃ d o, store = some d ∧ d.driverId = some o ∧ o ≠ "" ∧ o ≠ cid ∧
        (d.updatedAt.getD 0 = 0 ∨ now - d.updatedAt.getD 0 < 15000) := by
  constructor
  · intro h
    cases store with
    | none => exact absurd h (by simp [occupiedByOther])
    | some d =>
      unfold occupiedByOther at h
      dsimp only at h
      rw [Bool.and_eq_true, Bool.and_eq_true, Bool.or_eq_true, decide_eq_true_eq,
        decide_eq_true_eq, decide_eq_true_eq] at h
      obtain ⟨⟨ht, hne⟩, hfresh⟩ := h
      cases hid : d.driverId with
      | none => rw [hid] at ht; exact absurd ht (by simp [truthyStr])
      | some o =>
        rw [hid] at ht hne
        refine ⟨d, o, rfl, hid, (truthyStr_some_iff o).mp ht, ?_, ?_⟩
        · intro hoc
          exact hne (by rw [hoc])
        · simpa [STALE_MS] using hfresh
  · rintro ⟨d, o, rfl, hid, hne, hnec, hfresh⟩
    unfold occupiedByOther
    dsimp only
    rw [Bool.and_eq_true, Bool.and_eq_true, Bool.or_eq_true, decide_eq_true_eq,
      decide_eq_true_eq, decide_eq_true_eq, hid]
    exact ⟨⟨(truthyStr_some_iff o).mpr hne, by simpa using hnec⟩,
      by simpa [STALE_MS] using hfresh⟩

/-- Claim C2: outside quota backoff and with the store reachable,
`tryEnterCar` returns `false` exactly when the document records a present
(truthy) driver id that differs from the requester and is not stale (an
update younger than 15000 ms, or an unknown/absent timestamp, counts as
fresh); in every other case it returns `true` and the same transaction
writes the requester's client id and display name into the driver slot
with a fresh timestamp.  On denial nothing is written. -/
theorem tryEnterCar_result_spec {V : Type} (cid nm : String) (now : ℤ)
    (store : Option (CarDoc V)) :
    ((tryEnterCar false cid nm now store).1 = false ↔
      ∃ d o, store = some d ∧ d.driverId = some o ∧ o ≠ "" ∧ o ≠ cid ∧
        (d.updatedAt.getD 0 = 0 ∨ now - d.updatedAt.getD 0 < 15000)) ∧
    ((tryEnterCar false cid nm now store).1 = true →
      ∃ dn, (tryEnterCar false cid nm now store).2 = some dn ∧
        dn.driverId = some cid ∧ dn.driverName = some nm ∧ dn.updatedAt = some now) ∧
    ((tryEnterCar false cid nm now store).1 = false →
      (tryEnterCar false cid nm now store).2 = store) := by
  have hred : tryEnterCar false cid nm now store = tryEnterCarTx cid nm now store := rfl
  rw [hred]
  by_cases hocc : occupiedByOther cid now store = true
  · have hres : tryEnterCarTx cid nm now store = (false, store) := by
      unfold tryEnterCarTx
      rw [if_pos hocc]
    rw [hres]
    refine ⟨?_, ?_, ?_⟩
    · simpa using (occupiedByOther_iff cid now store).mp hocc
    · intro h
      exact absurd h (by simp)
    · intro _
      rfl
  · have hocc2 : occupiedByOther cid now store = false := by
      cases h0 : occupiedByOther cid now store
      · rfl
      · exact absurd h0 hocc
    have hres : ∃ dn, tryEnterCarTx cid nm now store = (true, some dn) ∧
        dn.driverId = some cid ∧ dn.driverName = some nm ∧ dn.updatedAt = some now := by
      cases store with
      | none =>
        refine ⟨⟨some cid, some nm, some now, fun _ => none⟩, ?_, rfl, rfl, rfl⟩
        unfold tryEnterCarTx
        rw [hocc2]
        simp
      | some d =>
        refine ⟨⟨some cid, some nm, some now, d.rest⟩, ?_, rfl, rfl, rfl⟩
        unfold tryEnterCarTx
        rw [hocc2]
        simp
    obtain ⟨dn, hres, h1, h2, h3⟩ := hres
    rw [hres]
    refine ⟨?_, ?_, ?_⟩
    · constructor
      · intro h
        simp at h
      · intro hRHS
        exact absurd ((occupiedByOther_iff cid now store).mpr hRHS) hocc
    · intro _
      exact ⟨dn, rfl, h1, h2, h3⟩
    · intro h
      simp at h

/-- Witness for C2 at a concrete occupied store: the document records
driver `p-x` with a fresh update, a different client `p-y` asks at time 9,
and the theorem characterizes the denial. -/
theorem tryEnterCar_result_spec_witness :
    ((tryEnterCar false "p-y" "Yara" 9 (some docForeign)).1 = false ↔
      ∃ d o, some docForeign = some d ∧ d.driverId = some o ∧ o ≠ "" ∧ o ≠ "p-y" ∧
        (d.updatedAt.getD 0 = 0 ∨ 9 - d.updatedAt.getD 0 < 15000)) ∧
    ((tryEnterCar false "p-y" "Yara" 9 (some docForeign)).1 = true →
      ∃ dn, (tryEnterCar false "p-y" "Yara" 9 (some docForeign)).2 = some dn ∧
        dn.driverId = some "p-y" ∧ dn.driverName = some "Yara" ∧ dn.updatedAt = some 9) ∧
    ((tryEnterCar false "p-y" "Yara" 9 (some docForeign)).1 = false →
      (tryEnterCar false "p-y" "Yara" 9 (some docForeign)).2 = some docForeign) :=
  tryEnterCar_result_spec "p-y" "Yara" 9 (some docForeign)

/-! ## C1: exactly one concurrent acquire succeeds -/

/-- An acquire transaction against a document with no truthy driver always
succeeds and installs the requester with a fresh timestamp. -/
theorem acquire_succeeds_free {V : Type} (cid nm : String) (t : ℤ)
    (store : Option (CarDoc V))
    (hfree : ∀ d, store = some d → truthyStr d.driverId = false) :
    ∃ dn, tryEnterCarTx cid nm t store = (true, some dn) ∧
      dn.driverId = some cid ∧ dn.updatedAt = some t := by
  cases store with
  | none =>
    refine ⟨⟨some cid, some nm, some t, fun _ => none⟩, ?_, rfl, rfl⟩
    unfold tryEnterCarTx occupiedByOther
    simp
  | some d =>
    have hf := hfree d rfl
    have hocc : occupiedByOther cid t (some d) = false := by
      unfold occupiedByOther
      dsimp only
      rw [hf]
      rfl
    refine ⟨⟨some cid, some nm, some t, d.rest⟩, ?_, rfl, rfl⟩
    unfold tryEnterCarTx
    rw [hocc]
    simp

/-- An acquire transaction against a document driven by a fresh different
client is denied and writes nothing. -/
theorem acquire_denied {V : Type} (c n : String) (t : ℤ) (d : CarDoc V) (o : String)
    (t0 : ℤ) (hid : d.driverId = some o) (ho : o ≠ "") (hne : o ≠ c)
    (hupd : d.updatedAt = some t0) (ht : t - t0 < 15000) :
    tryEnterCarTx c n t (some d) = (false, some d) := by
  have hocc : occupiedByOther c t (some d) = true := by
    unfold occupiedByOther
    dsimp only
    rw [hid, hupd, Bool.and_eq_true, Bool.and_eq_true, Bool.or_eq_true, decide_eq_true_eq,
      decide_eq_true_eq, decide_eq_true_eq]
    exact ⟨⟨(truthyStr_some_iff o).mpr ho, by simpa using hne⟩,
      Or.inr (by simpa [STALE_MS] using ht)⟩
  unfold tryEnterCarTx
  rw [if_pos hocc]

/-- Claim C1: when N clients with distinct (nonempty) ids concurrently call
`tryEnterCar` on a vehicle with no prior driver, and the store serializes
their transactions in some order within the 15000 ms staleness window,
the first serialized call returns `true` and every other call returns
`false` — exactly one acquisition succeeds. -/
theorem tryAcquire_exactly_one {V : Type} (r0 : AcquireReq) (rest : List AcquireReq)
    (store : Option (CarDoc V))
    (hfree : ∀ d, store = some d → truthyStr d.driverId = false)
    (hcid : r0.cid ≠ "")
    (hdist : ∀ r ∈ rest, r.cid ≠ r0.cid)
    (hwin : ∀ r ∈ rest, r.now - r0.now < 15000) :
    (runAcquires (r0 :: rest) store).1 = true :: rest.map (fun _ => false) ∧
    (runAcquires (r0 :: rest) store).1.count true = 1 := by
  obtain ⟨dn, hres, hid, hupd⟩ := acquire_succeeds_free r0.cid r0.nm r0.now store hfree
  have hmain : ∀ (rs : List AcquireReq), (∀ r ∈ rs, r.cid ≠ r0.cid) →
      (∀ r ∈ rs, r.now - r0.now < 15000) →
      runAcquires (V := V) rs (some dn) = (rs.map fun _ => false, some dn) := by
    intro rs
    induction rs with
    | nil => intro _ _; rfl
    | cons r rs ih =>
      intro h1 h2
      have hden := acquire_denied r.cid r.nm r.now dn r0.cid r0.now hid hcid
        ((h1 r (List.mem_cons_self r rs)).symm) hupd (h2 r (List.mem_cons_self r rs))
      have ihh := ih (fun x hx => h1 x (List.mem_cons_of_mem r hx))
        (fun x hx => h2 x (List.mem_cons_of_mem r hx))
      simp [runAcquires, hden, ihh]
  have hall : runAcquires (r0 :: rest) store = (true :: rest.map fun _ => false, some dn) := by
    simp [runAcquires, hres, hmain rest hdist hwin]
  constructor
  · rw [hall]
  · rw [hall]
    have h0 : (List.replicate rest.length false).count true = 0 :=
      List.count_eq_zero.mpr (by simp)
    simp [List.count_cons, h0]

/-- Witness for C1: three clients race for an unseeded vehicle document;
serialized in arrival order, only the first succeeds. -/
theorem tryAcquire_exactly_one_witness :
    (runAcquires (V := Unit) [reqA, reqB, reqC] none).1 = [true, false, false] ∧
    (runAcquires (V := Unit) [reqA, reqB, reqC] none).1.count true = 1 := by
  obtain ⟨h1, h2⟩ := tryAcquire_exactly_one (V := Unit) reqA [reqB, reqC] none
    (fun d hd => by cases hd) (by decide) (by decide) (by decide)
  exact ⟨by simpa using h1, h2⟩

/-! ## C6: the step never leaves the world bounds -/

/-- The x component the clamp produces, as a plain conditional. -/
theorem clampBounds_px_eq (b : Bounds) (r : ResolveState) :
    (clampBounds b r).px =
      if r.px < b.minX + carHalfW then b.minX + carHalfW
      else if b.maxX - carHalfW < r.px then b.maxX - carHalfW
      else r.px := by
  unfold clampBounds
  simp only [apply_ite ResolveState.px, apply_ite ResolveState.pz, ite_self]

/-- The z component the clamp produces, as a plain conditional. -/
theorem clampBounds_pz_eq (b : Bounds) (r : ResolveState) :
    (clampBounds b r).pz =
      if r.pz < b.minZ + carHalfD then b.minZ + carHalfD
      else if b.maxZ - carHalfD < r.pz then b.maxZ - carHalfD
      else r.pz := by
  unfold clampBounds
  simp only [apply_ite ResolveState.px, apply_ite ResolveState.pz, ite_self]

/-- Claim C6: for every input, collider list and timestep, the position a
local simulation step ends with lies inside `[minX, maxX] × [minZ, maxZ]`,
because the step's final position update clamps x to
`[minX + carHalfW, maxX - carHalfW]` and z to `[minZ + carHalfD, maxZ - carHalfD]`
(stated for any bounds wide enough to hold the car, as the scene's ±1200
bounds are); consequently the invariant holds after any number of steps. -/
theorem step_stays_in_bounds (sn cs : ℚ → ℚ) (piV : ℚ) (cols dyn : List Collider)
    (b : Bounds) (inp : CarInput) (s : CarSimState) (delta : ℚ)
    (hx : b.minX + carHalfW ≤ b.maxX - carHalfW)
    (hz : b.minZ + carHalfD ≤ b.maxZ - carHalfD) :
    b.minX ≤ (step sn cs piV cols dyn b inp s delta).x ∧
    (step sn cs piV cols dyn b inp s delta).x ≤ b.maxX ∧
    b.minZ ≤ (step sn cs piV cols dyn b inp s delta).z ∧
    (step sn cs piV cols dyn b inp s delta).z ≤ b.maxZ := by
  have hw : (0:ℚ) ≤ carHalfW := by norm_num [carHalfW, carScale]
  have hd : (0:ℚ) ≤ carHalfD := by norm_num [carHalfD, carScale]
  have key : ∀ R : ResolveState,
      b.minX ≤ (clampBounds b R).px ∧ (clampBounds b R).px ≤ b.maxX ∧
      b.minZ ≤ (clampBounds b R).pz ∧ (clampBounds b R).pz ≤ b.maxZ := by
    intro R
    rw [clampBounds_px_eq, clampBounds_pz_eq]
    refine ⟨?_, ?_, ?_, ?_⟩ <;> split_ifs <;> linarith
  exact key _

/-- Witness for C6 with the scene's actual ±1200 bounds and a concrete
driving step. -/
theorem step_stays_in_bounds_witness :
    (worldBounds.minX + carHalfW ≤ worldBounds.maxX - carHalfW) ∧
    (worldBounds.minZ + carHalfD ≤ worldBounds.maxZ - carHalfD) ∧
    (worldBounds.minX ≤ (step snZero csOne 3 [cexColA] [] worldBounds zeroInput cexCarState 1).x ∧
     (step snZero csOne 3 [cexColA] [] worldBounds zeroInput cexCarState 1).x ≤ worldBounds.maxX ∧
     worldBounds.minZ ≤ (step snZero csOne 3 [cexColA] [] worldBounds zeroInput cexCarState 1).z ∧
     (step snZero csOne 3 [cexColA] [] worldBounds zeroInput cexCarState 1).z ≤ worldBounds.maxZ) :=
  ⟨by norm_num [worldBounds, carHalfW, carScale],
   by norm_num [worldBounds, carHalfD, carScale],
   step_stays_in_bounds snZero csOne 3 [cexColA] [] worldBounds zeroInput cexCarState 1
     (by norm_num [worldBounds, carHalfW, carScale])
     (by norm_num [worldBounds, carHalfD, carScale])⟩

/-! ## C7: damage and bounce on a resolved collision -/

/-- Claim C7: on every step that resolves a collision, the damage becomes
`min 1 (damage + min 1 (|speed| / 18) * 0.22)` (the increase is capped so
accumulated damage never exceeds 1) and the speed is multiplied by `-0.25`
and then snapped to `0` when its magnitude falls below `0.8`, where
`speed` is the integrated pre-collision speed of the same frame; the
results are exact rationals, in particular always finite. -/
theorem step_collision_damage_bounce (sn cs : ℚ → ℚ) (piV : ℚ)
    (cols dyn : List Collider) (b : Bounds) (inp : CarInput) (s : CarSimState)
    (delta : ℚ) (hc : (step sn cs piV cols dyn b inp s delta).collided = true) :
    (step sn cs piV cols dyn b inp s delta).damage
      = min 1 (s.damage + min 1 (|integratedSpeed inp s.gear s.speed delta| / 18) * (22/100)) ∧
    (step sn cs piV cols dyn b inp s delta).speed
      = (if |integratedSpeed inp s.gear s.speed delta * (-(25/100))| < 8/10 then 0
         else integratedSpeed inp s.gear s.speed delta * (-(25/100))) ∧
    (step sn cs piV cols dyn b inp s delta).damage ≤ 1 := by
  have hdmg : (step sn cs piV cols dyn b inp s delta).damage
      = postCollisionDamage ((step sn cs piV cols dyn b inp s delta).collided)
          (integratedSpeed inp s.gear s.speed delta) s.damage := rfl
  have hspd : (step sn cs piV cols dyn b inp s delta).speed
      = postCollisionSpeed ((step sn cs piV cols dyn b inp s delta).collided)
          (integratedSpeed inp s.gear s.speed delta) := rfl
  rw [hdmg, hspd, hc]
  unfold postCollisionDamage postCollisionSpeed
  refine ⟨by simp, by simp, ?_⟩
  simp only [if_pos rfl]
  exact min_le_left _ _

/-- Witness for C7: a vehicle at speed 20 placed in a world too small for
the car is clamped on both axes, which counts as a collision; the theorem
then gives the exact damage and bounce values. -/
theorem step_collision_damage_bounce_witness :
    (step snZero csOne 3 [] [] tinyBounds zeroInput speedyCarState 0).collided = true ∧
    ((step snZero csOne 3 [] [] tinyBounds zeroInput speedyCarState 0).damage
        = min 1 (speedyCarState.damage +
            min 1 (|integratedSpeed zeroInput speedyCarState.gear speedyCarState.speed 0| / 18) * (22/100)) ∧
     (step snZero csOne 3 [] [] tinyBounds zeroInput speedyCarState 0).speed
        = (if |integratedSpeed zeroInput speedyCarState.gear speedyCarState.speed 0 * (-(25/100))| < 8/10 then 0
           else integratedSpeed zeroInput speedyCarState.gear speedyCarState.speed 0 * (-(25/100))) ∧
     (step snZero csOne 3 [] [] tinyBounds zeroInput speedyCarState 0).damage ≤ 1) :=
  ⟨by norm_num [step, resolvePhase, clampBounds, integratedSpeed, steerOf, jsSign,
      tinyBounds, speedyCarState, zeroInput, snZero, csOne, carHalfW, carHalfD, carScale,
      gearRatioTable, drag, rolling, enginePower, brakePower, abs],
   step_collision_damage_bounce snZero csOne 3 [] [] tinyBounds zeroInput speedyCarState 0
     (by norm_num [step, resolvePhase, clampBounds, integratedSpeed, steerOf, jsSign,
        tinyBounds, speedyCarState, zeroInput, snZero, csOne, carHalfW, carHalfD, carScale,
        gearRatioTable, drag, rolling, enginePower, brakePower, abs])⟩

/-! ## C10: the traction formula and its true range -/

/-- Claim C10: every local step reports
`traction = max(0, 1 - min(1, |speed| / 45) * |steerInput| * 0.6)` with
`steerInput ∈ {-1, 0, 1}` (taking `|speed|` as the frame's integrated
pre-collision speed magnitude), and since the penalty term is at most 0.6
the value always lies in `[0.4, 1]` — the floor at 0 in the formula is
never attained. -/
theorem step_traction_range (sn cs : ℚ → ℚ) (piV : ℚ) (cols dyn : List Collider)
    (b : Bounds) (inp : CarInput) (s : CarSimState) (delta : ℚ) :
    (steerOf inp = -1 ∨ steerOf inp = 0 ∨ steerOf inp = 1) ∧
    (step sn cs piV cols dyn b inp s delta).traction
      = max 0 (1 - min 1 (|integratedSpeed inp s.gear s.speed delta| / 45) *
          |steerOf inp| * (6/10)) ∧
    2/5 ≤ (step sn cs piV cols dyn b inp s delta).traction ∧
    (step sn cs piV cols dyn b inp s delta).traction ≤ 1 := by
  have hsteer : steerOf inp = -1 ∨ steerOf inp = 0 ∨ steerOf inp = 1 := by
    unfold steerOf
    split_ifs <;> norm_num
  have habs : |steerOf inp| ≤ 1 := by
    rcases hsteer with h | h | h <;> rw [h] <;> norm_num
  have ht : (step sn cs piV cols dyn b inp s delta).traction
      = max 0 (1 - min 1 (|integratedSpeed inp s.gear s.speed delta| / 45) *
          |steerOf inp| * (6/10)) := rfl
  have hsa0 : (0:ℚ) ≤ |integratedSpeed inp s.gear s.speed delta| := abs_nonneg _
  have hmin0 : (0:ℚ) ≤ min 1 (|integratedSpeed inp s.gear s.speed delta| / 45) :=
    le_min (by norm_num) (by positivity)
  have hmin1 : min 1 (|integratedSpeed inp s.gear s.speed delta| / 45) ≤ 1 :=
    min_le_left _ _
  have hpen0 : (0:ℚ) ≤ min 1 (|integratedSpeed inp s.gear s.speed delta| / 45) *
      |steerOf inp| * (6/10) := by positivity
  have hpen : min 1 (|integratedSpeed inp s.gear s.speed delta| / 45) *
      |steerOf inp| * (6/10) ≤ 6/10 := by
    have h1 : min 1 (|integratedSpeed inp s.gear s.speed delta| / 45) * |steerOf inp| ≤ 1 := by
      calc min 1 (|integratedSpeed inp s.gear s.speed delta| / 45) * |steerOf inp|
          ≤ 1 * 1 := mul_le_mul hmin1 habs (abs_nonneg _) (by norm_num)
        _ = 1 := by norm_num
    nlinarith
  refine ⟨hsteer, ht, ?_, ?_⟩
  · rw [ht]
    have h1 : (2:ℚ)/5 ≤ 1 - min 1 (|integratedSpeed inp s.gear s.speed delta| / 45) *
        |steerOf inp| * (6/10) := by linarith
    exact le_trans h1 (le_max_right _ _)
  · rw [ht]
    exact max_le (by norm_num) (by linarith)

/-! ## C8: bounded chat log, sorted display -/

/-- Dropping fewer elements than the list holds keeps its last element. -/
theorem getLast?_drop_of_lt {α : Type} (l : List α) (n : ℕ) (h : n < l.length) :
    (l.drop n).getLast? = l.getLast? := by
  obtain ⟨t, ht⟩ := List.drop_suffix n l
  have hne : l.drop n ≠ [] := by
    intro h0
    have hl := List.length_drop n l
    rw [h0] at hl
    simp at hl
    omega
  obtain ⟨y, hy⟩ := Option.isSome_iff_exists.mp (List.getLast?_isSome.mpr hne)
  conv_rhs => rw [← ht]
  rw [List.getLast?_append, hy]
  rfl

/-- Claim C8: every chat append (read the stored list, keep its object
entries, append the new message, `slice(-40)`, write back) leaves at most
`CHAT_MAX_MESSAGES = 40` stored messages, keeps a suffix of the appended
log (the most recent entries) ending in the new message — so the bound
holds regardless of how long the pre-existing list was or how many
appends occur — and the merged display list is sorted non-decreasing by
creation timestamp independent of arrival order. -/
theorem chat_bounded_and_sorted :
    (∀ (M : Type) (stored : List (Option M)) (m : M),
      (appendChat stored m).length ≤ CHAT_MAX_MESSAGES ∧
      appendChat stored m <:+ stored.filterMap id ++ [m] ∧
      (appendChat stored m).getLast? = some m) ∧
    (∀ raws : List RawMsg,
      List.Pairwise (fun a b => a.createdAtMs ≤ b.createdAtMs) (parseChatRows raws)) := by
  constructor
  · intro M stored m
    refine ⟨?_, ?_, ?_⟩
    · unfold appendChat
      dsimp only
      rw [List.length_drop]
      omega
    · unfold appendChat
      exact List.drop_suffix _ _
    · unfold appendChat
      dsimp only
      rw [getLast?_drop_of_lt _ _ (by simp [CHAT_MAX_MESSAGES]; omega)]
      exact List.getLast?_concat _
  · intro raws
    unfold parseChatRows
    have h := @List.sorted_mergeSort ChatRow
      (fun a b : ChatRow => decide (a.createdAtMs ≤ b.createdAtMs))
      (fun a b c hab hbc => by
        simp only [decide_eq_true_eq] at hab hbc ⊢
        exact le_trans hab hbc)
      (fun a b => by
        simp only [Bool.or_eq_true, decide_eq_true_eq]
        exact le_total _ _)
      (raws.filterMap parseRow)
    exact h.imp fun hab => of_decide_eq_true hab

/-! ## C9: publish throttling -/

/-- Publishing the payload it already sent counts as unchanged. -/
theorem playerChanged_self (hyp : ℚ → ℚ → ℚ) (piV : ℚ) (p : PlayerPayload)
    (h0 : hyp 0 0 = 0) (hpi : 0 < piV) :
    playerChanged hyp piV p (some p) = false := by
  have hm : playerMoveDist hyp p (some p) = 0 := by
    simp [playerMoveDist, h0]
  have htr : ratTrunc ((p.yaw - p.yaw + piV * 3) / (piV * 2)) = 1 := by
    have he : (p.yaw - p.yaw + piV * 3) / (piV * 2) = 3 / 2 := by
      rw [sub_self, zero_add, div_eq_div_iff (by positivity) (by norm_num)]
      ring
    rw [he]
    norm_num [ratTrunc]
  have hy : playerYawDiff piV p (some p) = 0 := by
    simp only [playerYawDiff, jsRem, htr]
    have he : p.yaw - p.yaw + piV * 3 - piV * 2 * ((1 : ℤ) : ℚ) - piV = 0 := by
      push_cast
      ring
    rw [he, abs_zero]
  simp only [playerChanged, hm, hy, Bool.or_eq_false_iff, decide_eq_false_iff_not]
  refine ⟨⟨⟨⟨⟨⟨?_, ?_⟩, ?_⟩, ?_⟩, ?_⟩, ?_⟩, ?_⟩ <;> norm_num

/-- The gap selected for an unchanged republish is the heartbeat gap. -/
theorem playerGap_self (hyp : ℚ → ℚ → ℚ) (piV : ℚ) (p : PlayerPayload)
    (h0 : hyp 0 0 = 0) (hpi : 0 < piV) :
    playerGap hyp piV p (some p) = PLAYER_HEARTBEAT_MS := by
  unfold playerGap
  rw [playerChanged_self hyp piV p h0 hpi]
  simp

/-- Once the state records a send of payload `p` at or after the window
start, further attempts with payload `p` inside the window all skip. -/
theorem runPlayerPublishes_none (hyp : ℚ → ℚ → ℚ) (piV : ℚ) (p : PlayerPayload)
    (T : ℤ) :
    ∀ (ts : List ℤ) (st : PubState PlayerPayload),
      hyp 0 0 = 0 → 0 < piV → st.lastPayload = some p → T ≤ st.lastSent →
      (∀ t ∈ ts, t < T + PLAYER_HEARTBEAT_MS) →
      (runPlayerPublishes hyp piV st ts p).1.count true = 0 := by
  intro ts
  induction ts with
  | nil =>
    intro st _ _ _ _ _
    simp [runPlayerPublishes]
  | cons t rest ih =>
    intro st h0 hpi hp hs hts
    have hgap : playerGap hyp piV p st.lastPayload = PLAYER_HEARTBEAT_MS := by
      rw [hp]
      exact playerGap_self hyp piV p h0 hpi
    have hiss : playerIssues hyp piV st t p false = false := by
      unfold playerIssues
      rw [hgap]
      have hlt : t - st.lastSent < PLAYER_HEARTBEAT_MS := by
        have h1 := hts t (List.mem_cons_self t rest)
        simp only [PLAYER_HEARTBEAT_MS] at h1 ⊢
        omega
      simp [hlt]
    have hskip : playerPublishStep hyp piV st t p false = (false, st) := by
      unfold playerPublishStep
      rw [hiss]
      simp
    simp only [runPlayerPublishes, hskip, List.count_cons]
    have := ih st h0 hpi hp hs (fun x hx => hts x (List.mem_cons_of_mem t hx))
    simp [this]

/-- Repeated attempts to publish an already-sent payload inside one
heartbeat window produce at most one outgoing write. -/
theorem runPlayerPublishes_le_one (hyp : ℚ → ℚ → ℚ) (piV : ℚ) (p : PlayerPayload)
    (T : ℤ) :
    ∀ (ts : List ℤ) (st : PubState PlayerPayload),
      hyp 0 0 = 0 → 0 < piV → st.lastPayload = some p →
      (∀ t ∈ ts, T ≤ t ∧ t < T + PLAYER_HEARTBEAT_MS) →
      (runPlayerPublishes hyp piV st ts p).1.count true ≤ 1 := by
  intro ts
  induction ts with
  | nil =>
    intro st _ _ _ _
    simp [runPlayerPublishes]
  | cons t rest ih =>
    intro st h0 hpi hp hts
    have hgap : playerGap hyp piV p st.lastPayload = PLAYER_HEARTBEAT_MS := by
      rw [hp]
      exact playerGap_self hyp piV p h0 hpi
    by_cases hlt : t - st.lastSent < PLAYER_HEARTBEAT_MS
    · have hiss : playerIssues hyp piV st t p false = false := by
        unfold playerIssues
        rw [hgap]
        simp [hlt]
      have hskip : playerPublishStep hyp piV st t p false = (false, st) := by
        unfold playerPublishStep
        rw [hiss]
        simp
      simp only [runPlayerPublishes, hskip, List.count_cons]
      have := ih st h0 hpi hp (fun x hx => hts x (List.mem_cons_of_mem t hx))
      simp [this]
    · have hiss : playerIssues hyp piV st t p false = true := by
        unfold playerIssues
        rw [hgap]
        simp [hlt]
      have hsend : playerPublishStep hyp piV st t p false = (true, ⟨t, some p⟩) := by
        unfold playerPublishStep
        rw [hiss]
        simp [playerThen]
      have hrest : (runPlayerPublishes hyp piV ⟨t, some p⟩ rest p).1.count true = 0 := by
        refine runPlayerPublishes_none hyp piV p T rest ⟨t, some p⟩ h0 hpi rfl ?_ ?_
        · exact (hts t (List.mem_cons_self t rest)).1
        · exact fun x hx => (hts x (List.mem_cons_of_mem t hx)).2
      simp only [runPlayerPublishes, hsend, List.count_cons]
      simp [hrest]

/-- The prompt-acknowledgement run is one schedule of the faithful effect
model: it issues exactly the writes `runPlayerPublishes` reports. -/
theorem runPlayerEffect_prompt (hyp : ℚ → ℚ → ℚ) (piV : ℚ) (p : PlayerPayload) :
    ∀ (ts : List ℤ) (st : PubState PlayerPayload),
      (runPlayerEffect hyp piV st (promptSchedule hyp piV st p ts)).1.length
        = (runPlayerPublishes hyp piV st ts p).1.count true := by
  intro ts
  induction ts with
  | nil =>
    intro st
    simp [promptSchedule, runPlayerEffect, runPlayerPublishes]
  | cons t rest ih =>
    intro st
    by_cases hiss : playerIssues hyp piV st t p false = true
    · have hsched : promptSchedule hyp piV st p (t :: rest)
          = PlayerEvent.attempt t p :: PlayerEvent.ack t p ::
              promptSchedule hyp piV (playerThen t p) p rest := by
        simp only [promptSchedule]
        rw [if_pos hiss]
      have heff : (runPlayerEffect hyp piV st (promptSchedule hyp piV st p (t :: rest))).1
          = t :: (runPlayerEffect hyp piV (playerThen t p)
              (promptSchedule hyp piV (playerThen t p) p rest)).1 := by
        rw [hsched]
        simp [runPlayerEffect, hiss]
      have hpub : (runPlayerPublishes hyp piV st (t :: rest) p).1
          = true :: (runPlayerPublishes hyp piV (playerThen t p) rest p).1 := by
        simp [runPlayerPublishes, playerPublishStep, hiss]
      rw [heff, hpub]
      simp [List.count_cons, ih (playerThen t p)]
    · have hiss2 : playerIssues hyp piV st t p false = false := by
        cases h0 : playerIssues hyp piV st t p false
        · rfl
        · exact absurd h0 hiss
      have hsched : promptSchedule hyp piV st p (t :: rest)
          = PlayerEvent.attempt t p :: promptSchedule hyp piV st p rest := by
        simp only [promptSchedule]
        rw [if_neg hiss]
      have heff : (runPlayerEffect hyp piV st (promptSchedule hyp piV st p (t :: rest))).1
          = (runPlayerEffect hyp piV st (promptSchedule hyp piV st p rest)).1 := by
        rw [hsched]
        simp [runPlayerEffect, hiss2]
      have hpub : (runPlayerPublishes hyp piV st (t :: rest) p).1
          = false :: (runPlayerPublishes hyp piV st rest p).1 := by
        simp [runPlayerPublishes, playerPublishStep, hiss2]
      rw [heff, hpub]
      simp [List.count_cons, ih st]

/-- Claim C9 counterexample: the refs record an acknowledged send of
`payloadGuest` at time 0; the effect then runs at 2500 and at 2510 with
the same unchanged payload while the first write is still
unacknowledged (network latency longer than one frame).  Both runs pass
the gap check against the stale refs, so two writes are issued 10 ms
apart — more than one outgoing write inside one 2500 ms heartbeat window
and far closer together than the selected heartbeat gap. -/
theorem player_publish_delayed_ack_cex :
    (runPlayerEffect hypAbsSum 3 ⟨0, some payloadGuest⟩
        [PlayerEvent.attempt 2500 payloadGuest, PlayerEvent.attempt 2510 payloadGuest]).1
      = [2500, 2510] ∧
    ((2510:ℤ) - 2500 < PLAYER_HEARTBEAT_MS) ∧
    ¬ ((runPlayerEffect hypAbsSum 3 ⟨0, some payloadGuest⟩
        [PlayerEvent.attempt 2500 payloadGuest,
         PlayerEvent.attempt 2510 payloadGuest]).1.length ≤ 1) := by
  have h0 : hypAbsSum 0 0 = 0 := by norm_num [hypAbsSum]
  have hgap : playerGap hypAbsSum 3 payloadGuest (some payloadGuest) = PLAYER_HEARTBEAT_MS :=
    playerGap_self hypAbsSum 3 payloadGuest h0 (by norm_num)
  have hiss1 : playerIssues hypAbsSum 3 ⟨0, some payloadGuest⟩ 2500 payloadGuest false
      = true := by
    unfold playerIssues
    dsimp only
    rw [hgap]
    decide
  have hiss2 : playerIssues hypAbsSum 3 ⟨0, some payloadGuest⟩ 2510 payloadGuest false
      = true := by
    unfold playerIssues
    dsimp only
    rw [hgap]
    decide
  refine ⟨?_, by decide, ?_⟩
  · simp [runPlayerEffect, hiss1, hiss2]
  · simp [runPlayerEffect, hiss1, hiss2]

/-- Claim C9 (amended): `pushCarState` records its send time and payload
synchronously before issuing, so a car write is issued only once
`now - lastSent` has reached the selected gap (fast, normal or heartbeat
tier).  The player effect likewise issues a write only when
`now - lastSent` computed from its refs has reached the selected gap,
but those refs are updated only by each write's acknowledgement
callback; under schedules in which every issued write is acknowledged
before the next effect run, any number of attempts carrying already-sent
unchanged player state within one 2500 ms heartbeat window issue at most
one outgoing write.  With delayed acknowledgements, multiple player
writes can be issued inside one window (see the counterexample). -/
theorem publish_gap_policy :
    (∀ (hyp : ℚ → ℚ → ℚ) (piV : ℚ) (st : PubState PlayerPayload) (now : ℤ)
      (p : PlayerPayload),
      playerIssues hyp piV st now p false = true →
      playerGap hyp piV p st.lastPayload ≤ now - st.lastSent) ∧
    (∀ (hyp : ℚ → ℚ → ℚ) (piV : ℚ) (st : PubState CarPatch) (now : ℤ)
      (patch : CarPatch),
      (pushCarStateStep hyp piV st now patch false).1 = true →
      carMinGap hyp piV patch st.lastPayload ≤ now - st.lastSent) ∧
    (∀ (hyp : ℚ → ℚ → ℚ) (piV : ℚ) (p : PlayerPayload) (st : PubState PlayerPayload)
      (T : ℤ) (ts : List ℤ),
      hyp 0 0 = 0 → 0 < piV → st.lastPayload = some p →
      (∀ t ∈ ts, T ≤ t ∧ t < T + PLAYER_HEARTBEAT_MS) →
      (runPlayerEffect hyp piV st (promptSchedule hyp piV st p ts)).1.length ≤ 1) := by
  refine ⟨?_, ?_, ?_⟩
  · intro hyp piV st now p h
    unfold playerIssues at h
    by_cases hlt : now - st.lastSent < playerGap hyp piV p st.lastPayload
    · simp [hlt] at h
    · omega
  · intro hyp piV st now patch h
    unfold pushCarStateStep at h
    by_cases hlt : now - st.lastSent < carMinGap hyp piV patch st.lastPayload
    · simp [hlt] at h
    · omega
  · intro hyp piV p st T ts h0 hpi hp hts
    rw [runPlayerEffect_prompt hyp piV p ts st]
    exact runPlayerPublishes_le_one hyp piV p T ts st h0 hpi hp hts

/-- Witness for the amended C9: a first-ever player issue (fast tier, gap
140 ms) at time 10000; a first-ever car publish (fast tier, gap 90 ms);
and three unchanged republish attempts inside one heartbeat window under
prompt acknowledgements yielding at most one write. -/
theorem publish_gap_policy_witness :
    (playerGap hypAbsSum 3 payloadGuest (none : Option PlayerPayload) ≤ 10000 - 0) ∧
    (carMinGap hypAbsSum 3 patchCar1 (none : Option CarPatch) ≤ 10000 - 0) ∧
    ((runPlayerEffect hypAbsSum 3 ⟨0, some payloadGuest⟩
        (promptSchedule hypAbsSum 3 ⟨0, some payloadGuest⟩ payloadGuest
          [100, 600, 2400])).1.length ≤ 1) := by
  refine ⟨?_, ?_, ?_⟩
  · have h := publish_gap_policy.1 hypAbsSum 3 ⟨0, none⟩ 10000 payloadGuest ?_
    · simpa using h
    · norm_num [playerIssues, playerGap, playerChanged, playerMoveDist, playerYawDiff,
        payloadGuest, PLAYER_SYNC_FAST_MS, PLAYER_SYNC_NORMAL_MS, PLAYER_HEARTBEAT_MS]
  · have h := publish_gap_policy.2.1 hypAbsSum 3 ⟨0, none⟩ 10000 patchCar1 ?_
    · simpa using h
    · norm_num [pushCarStateStep, carMinGap, carChanged, carPosMove, carYawDiff,
        patchCar1, CAR_SYNC_FAST_MS, CAR_SYNC_NORMAL_MS, CAR_HEARTBEAT_MS]
  · exact publish_gap_policy.2.2 hypAbsSum 3 payloadGuest ⟨0, some payloadGuest⟩ 100
      [100, 600, 2400] (by norm_num [hypAbsSum]) (by norm_num) rfl
      (by intro t ht; simp [PLAYER_HEARTBEAT_MS] at ht ⊢; rcases ht with h | h | h <;> omega)

end GTA6
